import Mathlib

/-!
Verification of the postfiat task-state reconstruction core
(`src/postfiat/nodes/task/state/__init__.py`).

The state machinery (TaskState, LogState, AccountState, NodeState,
UserState) is embedded as pure Lean functions, translated directly from the
Python source.  Python dictionaries with default-constructed values
(`defaultdict`) are embedded as total functions from keys to values, with
the default value at every untouched key; mutation of an entry becomes a
pointwise functional update.  The message model lives in
`postfiat.nodes.task.models.messages`, which is not part of the sources;
it is modelled from the spec where indicated.
-/

namespace PostFiat

/-- Modelled from the spec: the direction of a message relative to the
observer (inbound/outbound).  The messages module is absent from the
sources; only the field's presence matters to the core. -/
inductive Direction
  | userToNode
  | nodeToUser
deriving DecidableEq, Repr

/-- Scope of a message: whole-account or one task within it
(mirrors `Scope` consumed by `AccountState.update`). -/
inductive Scope
  | TASK
  | ACCOUNT
deriving DecidableEq, Repr

/-- Mirrors the Python `AccountStatus` enum. -/
inductive AccountStatus
  | INVALID
  | PENDING
  | ACTIVE
  | BLACKLISTED
deriving DecidableEq, Repr

/-- Mirrors the Python `RiteStatus` enum. -/
inductive RiteStatus
  | INVALID
  | UNSTARTED
  | UNDERWAY
  | COMPLETE
deriving DecidableEq, Repr

/-- Mirrors the Python `TaskStatus` enum. -/
inductive TaskStatus
  | INVALID
  | REQUESTED
  | PROPOSED
  | ACCEPTED
  | REFUSED
  | COMPLETED
  | CHALLENGED
  | RESPONDED
  | REWARDED
deriving DecidableEq, Repr

/-- Mirrors the Python `LogStatus` enum. -/
inductive LogStatus
  | INVALID
  | REQUESTED
  | RESPONDED
deriving DecidableEq, Repr

/-- Modelled from the spec: the closed set of message variants consumed by
the core, with the payload fields the core reads (offered amount, reward
amount, gdoc link, log text, sweep address).  Python `Decimal` amounts are
modelled as rationals. -/
inductive MsgVariant
  | userRequest
  | nodeProposal (pft_offer : Rat)
  | userAcceptance
  | userRefusal
  | userCompletion
  | nodeChallenge
  | userChallengeResponse
  | nodeReward (amount_pft : Rat)
  | userGDocContext (gdoc_context_link : String)
  | userInitiationRite
  | userLog (message : String)
  | nodeLogResponse (message : String)
  | nodeWalletFunding
  | nodeInitiationReward
  | userSweepAddress (sweep_address : String)
  | nodeBlacklist
deriving DecidableEq, Repr

/-- Modelled from the spec: the eight task-lifecycle variants carry scope
`TASK`; all other variants carry scope `ACCOUNT` (the scope field is fixed
by the message's concrete class in the source). -/
def MsgVariant.scope : MsgVariant → Scope
  | .userRequest => Scope.TASK
  | .nodeProposal _ => Scope.TASK
  | .userAcceptance => Scope.TASK
  | .userRefusal => Scope.TASK
  | .userCompletion => Scope.TASK
  | .nodeChallenge => Scope.TASK
  | .userChallengeResponse => Scope.TASK
  | .nodeReward _ => Scope.TASK
  | _ => Scope.ACCOUNT

/-- Whether a variant is a log request/response message
(`UserLogMessage` or `NodeLogResponseMessage`). -/
def MsgVariant.isLog : MsgVariant → Bool
  | .userLog _ => true
  | .nodeLogResponse _ => true
  | _ => false

/-- Payload of a proposal message, `none` for every other variant. -/
def MsgVariant.offerPayload : MsgVariant → Option Rat
  | .nodeProposal x => some x
  | _ => none

/-- Payload of a reward message, `none` for every other variant. -/
def MsgVariant.rewardPayload : MsgVariant → Option Rat
  | .nodeReward x => some x
  | _ => none

/-- Modelled from the spec: the typed message record consumed by the core.
Required fields per the external-interface contract: scope (derived from
the variant), direction, ledger position, owning-account identifier,
task identifier (required iff scope is TASK), message identifier (required
iff the variant is a log request/response), and the raw payload retained in
histories. -/
structure Message where
  direction : Direction
  ledger_seq : Nat
  transaction_seq : Nat
  user_wallet : String
  task_id : Option String
  message_id : Option String
  raw_data : String
  variant : MsgVariant
deriving DecidableEq, Repr

/-- Scope of a message, fixed by its variant. -/
def Message.scope (m : Message) : Scope := m.variant.scope

/-- Mirrors the Python `TaskState` dataclass. -/
structure TaskState where
  status : TaskStatus
  pft_offered : Option Rat
  pft_rewarded : Option Rat
  message_history : List (Direction × String)
deriving DecidableEq, Repr

/-- Default-constructed `TaskState()`. -/
def TaskState.initial : TaskState :=
  ⟨TaskStatus.INVALID, none, none, []⟩

/-- Mirrors `TaskState.update`: unconditionally append to the history,
then apply the guarded status transition for the message's variant. -/
def TaskState.update (s : TaskState) (m : Message) : TaskState :=
  let s1 : TaskState :=
    { s with message_history := s.message_history ++ [(m.direction, m.raw_data)] }
  match m.variant with
  | .userRequest =>
      if s1.status = TaskStatus.INVALID then
        { s1 with status := TaskStatus.REQUESTED }
      else s1
  | .nodeProposal offer =>
      if s1.status = TaskStatus.REQUESTED then
        { s1 with status := TaskStatus.PROPOSED, pft_offered := some offer }
      else s1
  | .userAcceptance =>
      if s1.status = TaskStatus.PROPOSED then
        { s1 with status := TaskStatus.ACCEPTED }
      else s1
  | .userRefusal =>
      if s1.status = TaskStatus.PROPOSED ∨ s1.status = TaskStatus.ACCEPTED ∨
          s1.status = TaskStatus.COMPLETED ∨ s1.status = TaskStatus.CHALLENGED then
        { s1 with status := TaskStatus.REFUSED }
      else s1
  | .userCompletion =>
      if s1.status = TaskStatus.ACCEPTED then
        { s1 with status := TaskStatus.COMPLETED }
      else s1
  | .nodeChallenge =>
      if s1.status = TaskStatus.COMPLETED then
        { s1 with status := TaskStatus.CHALLENGED }
      else s1
  | .userChallengeResponse =>
      if s1.status = TaskStatus.CHALLENGED then
        { s1 with status := TaskStatus.RESPONDED }
      else s1
  | .nodeReward amount =>
      if s1.status = TaskStatus.RESPONDED then
        { s1 with status := TaskStatus.REWARDED, pft_rewarded := some amount }
      else s1
  | _ => s1

/-- Mirrors the Python `LogState` dataclass. -/
structure LogState where
  status : LogStatus
  request : Option String
  response : Option String
deriving DecidableEq, Repr

/-- Default-constructed `LogState()`. -/
def LogState.initial : LogState :=
  ⟨LogStatus.INVALID, none, none⟩

/-- Mirrors `LogState.update`: unguarded set of status and text. -/
def LogState.update (s : LogState) (m : Message) : LogState :=
  match m.variant with
  | .userLog text => { s with status := LogStatus.REQUESTED, request := some text }
  | .nodeLogResponse text => { s with status := LogStatus.RESPONDED, response := some text }
  | _ => s

/-- Mirrors the Python `AccountState` dataclass.  The `defaultdict`
collections of children are embedded as total functions from key to child,
default-valued everywhere initially. -/
structure AccountState where
  init_rite_status : RiteStatus
  context_doc_link : Option String
  sweep_address : Option String
  is_blacklisted : Bool
  tasks : Option String → TaskState
  logs : Option String → LogState
  account_message_history : List (Direction × String)

/-- Default-constructed `AccountState()`. -/
def AccountState.initial : AccountState :=
  ⟨RiteStatus.UNSTARTED, none, none, false,
    fun _ => TaskState.initial, fun _ => LogState.initial, []⟩

/-- Mirrors `AccountState.status`: derived, never stored. -/
def AccountState.status (s : AccountState) : AccountStatus :=
  if s.is_blacklisted then AccountStatus.BLACKLISTED
  else if s.init_rite_status ≠ RiteStatus.COMPLETE ∨ s.context_doc_link = none then
    AccountStatus.PENDING
  else AccountStatus.ACTIVE

/-- Mirrors `AccountState.update`: drop everything when blacklisted,
otherwise append to the account history, then route by scope and variant
using the status computed at entry. -/
def AccountState.update (s : AccountState) (m : Message) : AccountState :=
  if s.status = AccountStatus.BLACKLISTED then s
  else
    let s1 : AccountState :=
      { s with account_message_history :=
          s.account_message_history ++ [(m.direction, m.raw_data)] }
    if m.scope = Scope.TASK then
      if s.status = AccountStatus.ACTIVE then
        { s1 with tasks := fun k =>
            if k = m.task_id then (s1.tasks m.task_id).update m else s1.tasks k }
      else s1
    else
      match m.variant with
      | .userGDocContext link => { s1 with context_doc_link := some link }
      | .userLog _ =>
          if s.status = AccountStatus.ACTIVE then
            { s1 with logs := fun k =>
                if k = m.message_id then (s1.logs m.message_id).update m else s1.logs k }
          else s1
      | .nodeLogResponse _ =>
          if s.status = AccountStatus.ACTIVE then
            { s1 with logs := fun k =>
                if k = m.message_id then (s1.logs m.message_id).update m else s1.logs k }
          else s1
      | .userInitiationRite =>
          if s1.init_rite_status = RiteStatus.UNSTARTED then
            { s1 with init_rite_status := RiteStatus.UNDERWAY }
          else s1
      | .nodeWalletFunding => s1
      | .nodeInitiationReward =>
          if s1.init_rite_status = RiteStatus.UNDERWAY then
            { s1 with init_rite_status := RiteStatus.COMPLETE }
          else s1
      | .userSweepAddress addr => { s1 with sweep_address := some addr }
      | .nodeBlacklist => { s1 with is_blacklisted := true }
      | _ => s1

/-- Diagnostic outcome of the root ordering check (the source prints a
line in the duplicate and out-of-order branches and is silent otherwise). -/
inductive SeqDiag
  | advanced
  | duplicate
  | outOfOrder
deriving DecidableEq, Repr

/-- Mirrors the watermark assignment in `__update_latest_ledger_seq` of
both `NodeState` and `UserState`. -/
def updateLatestLedgerSeq (latest : Nat × Nat) (m : Message) : Nat × Nat :=
  if m.ledger_seq > latest.1 ∨
      (m.ledger_seq = latest.1 ∧ m.transaction_seq > latest.2) then
    (m.ledger_seq, m.transaction_seq)
  else latest

/-- Mirrors the branch structure of `__update_latest_ledger_seq`: which of
the three branches (advance silently, print duplicate, print out-of-order)
a message falls into. -/
def ledgerSeqDiag (latest : Nat × Nat) (m : Message) : SeqDiag :=
  if m.ledger_seq > latest.1 ∨
      (m.ledger_seq = latest.1 ∧ m.transaction_seq > latest.2) then
    SeqDiag.advanced
  else if m.ledger_seq = latest.1 ∧ m.transaction_seq = latest.2 then
    SeqDiag.duplicate
  else SeqDiag.outOfOrder

/-- Mirrors the Python `NodeState` dataclass: one `AccountState` per
counterparty wallet (a `defaultdict`, embedded as a total function) and the
latest accepted ledger position. -/
structure NodeState where
  accounts : String → AccountState
  latest_ledger_seq : Nat × Nat

/-- Default-constructed `NodeState()`. -/
def NodeState.initial : NodeState :=
  ⟨fun _ => AccountState.initial, (0, 0)⟩

/-- Mirrors `NodeState.update`: run the ordering check on the watermark,
then route the message to the account keyed by its wallet.  The source
routes unconditionally; the ordering check only updates the watermark or
prints a diagnostic. -/
def NodeState.update (s : NodeState) (m : Message) : NodeState :=
  ⟨fun k => if k = m.user_wallet then (s.accounts m.user_wallet).update m
    else s.accounts k,
   updateLatestLedgerSeq s.latest_ledger_seq m⟩

/-- Mirrors the Python `UserState` dataclass: a single `AccountState` and
the latest accepted ledger position. -/
structure UserState where
  node_account : AccountState
  latest_ledger_seq : Nat × Nat

/-- Default-constructed `UserState()`. -/
def UserState.initial : UserState :=
  ⟨AccountState.initial, (0, 0)⟩

/-- Mirrors `UserState.update`: run the ordering check on the watermark,
then route the message to the single held account, unconditionally. -/
def UserState.update (s : UserState) (m : Message) : UserState :=
  ⟨s.node_account.update m, updateLatestLedgerSeq s.latest_ledger_seq m⟩

/-- Lexicographic non-strict order on ledger positions. -/
def lexLe (a b : Nat × Nat) : Prop :=
  a.1 < b.1 ∨ (a.1 = b.1 ∧ a.2 ≤ b.2)

/-- Lexicographic strict order on ledger positions. -/
def lexLt (a b : Nat × Nat) : Prop :=
  a.1 < b.1 ∨ (a.1 = b.1 ∧ a.2 < b.2)

instance (a b : Nat × Nat) : Decidable (lexLe a b) := by
  unfold lexLe; infer_instance

instance (a b : Nat × Nat) : Decidable (lexLt a b) := by
  unfold lexLt; infer_instance

/-- Concrete inbound task-request message at ledger position (1, 1),
used to instantiate theorems. -/
def msgRequest : Message :=
  ⟨Direction.userToNode, 1, 1, "w", some "t", none, "d", MsgVariant.userRequest⟩

/-- Concrete account whose blacklist flag is set. -/
def blacklistedAccount : AccountState :=
  ⟨RiteStatus.UNSTARTED, none, none, true,
    fun _ => TaskState.initial, fun _ => LogState.initial, []⟩

/-- One step of the watermark assignment never decreases the watermark. -/
theorem lexLe_updateLatestLedgerSeq (w : Nat × Nat) (m : Message) :
    lexLe w (updateLatestLedgerSeq w m) := by
  unfold updateLatestLedgerSeq
  split
  · rename_i h
    rcases h with h | ⟨h1, h2⟩
    · exact Or.inl h
    · exact Or.inr ⟨h1.symm, le_of_lt h2⟩
  · exact Or.inr ⟨rfl, le_refl _⟩

/-- C3: after every `update` on a `NodeState` or a `UserState`, the stored
(ledger_seq, transaction_seq) watermark either equals its previous value or
is strictly greater, i.e. it is non-decreasing in lexicographic order. -/
theorem watermark_nondecreasing (s : NodeState) (u : UserState) (m : Message) :
    lexLe s.latest_ledger_seq (s.update m).latest_ledger_seq
    ∧ lexLe u.latest_ledger_seq (u.update m).latest_ledger_seq :=
  ⟨lexLe_updateLatestLedgerSeq s.latest_ledger_seq m,
   lexLe_updateLatestLedgerSeq u.latest_ledger_seq m⟩

/-- C8: the derived account status is a pure function of the current
fields (in this embedding `status` is a function of the state record, so it
cannot mutate): it is BLACKLISTED exactly when the blacklist flag is set,
PENDING exactly when not blacklisted and the rite is incomplete or the
context link absent, and ACTIVE exactly in the remaining case. -/
theorem account_status_characterization (s : AccountState) :
    (s.status = AccountStatus.BLACKLISTED ↔ s.is_blacklisted = true)
    ∧ (s.status = AccountStatus.PENDING ↔
        (s.is_blacklisted = false ∧
          (s.init_rite_status ≠ RiteStatus.COMPLETE ∨ s.context_doc_link = none)))
    ∧ (s.status = AccountStatus.ACTIVE ↔
        (s.is_blacklisted = false ∧ s.init_rite_status = RiteStatus.COMPLETE
          ∧ s.context_doc_link ≠ none)) := by
  cases hb : s.is_blacklisted <;>
    by_cases h1 : s.init_rite_status = RiteStatus.COMPLETE <;>
    by_cases h2 : s.context_doc_link = none <;>
    simp [AccountState.status, hb, h1, h2]

/-- C5: once the blacklist flag of an account is true, `update` is the
identity on that account for every message: no field of the account or of
its child task/log states changes, nothing is appended to any history, and
in particular the flag itself never returns to false. -/
theorem blacklist_frozen (s : AccountState) (m : Message)
    (hb : s.is_blacklisted = true) :
    s.update m = s ∧ (s.update m).is_blacklisted = true := by
  have hs : s.status = AccountStatus.BLACKLISTED := by
    simp [AccountState.status, hb]
  refine ⟨?_, ?_⟩
  · simp [AccountState.update, hs]
  · simp [AccountState.update, hs, hb]

/-- Witness for C5 at a concrete blacklisted account and message. -/
theorem blacklist_frozen_witness :
    blacklistedAccount.update msgRequest = blacklistedAccount
    ∧ (blacklistedAccount.update msgRequest).is_blacklisted = true :=
  blacklist_frozen blacklistedAccount msgRequest rfl

/-- Concrete node state whose watermark is already at (5, 2). -/
def nodeAtFiveTwo : NodeState :=
  ⟨fun _ => AccountState.initial, (5, 2)⟩

/-- Concrete inbound task-request message at ledger position (5, 1),
strictly below the watermark of `nodeAtFiveTwo`. -/
def msgAtFiveOne : Message :=
  ⟨Direction.userToNode, 5, 1, "w", some "t", none, "d", MsgVariant.userRequest⟩

/-- Concrete user state whose watermark is already at (5, 2). -/
def userAtFiveTwo : UserState :=
  ⟨AccountState.initial, (5, 2)⟩

/-- C1 counterexample: applying the same message twice to a root state
does not produce the state obtained by applying it once — the duplicate is
detected on the watermark but is still routed to the `AccountState`, whose
history grows a second time. -/
theorem duplicate_not_dropped_counterexample :
    (NodeState.initial.update msgRequest).update msgRequest
      ≠ NodeState.initial.update msgRequest := by
  intro h
  have h2 := congrArg
    (fun st => ((st.accounts "w").account_message_history).length) h
  dsimp only at h2
  have hL : ((((NodeState.initial.update msgRequest).update
      msgRequest).accounts "w").account_message_history).length = 2 := by
    simp [NodeState.initial, NodeState.update, AccountState.update,
      AccountState.status, AccountState.initial, msgRequest, Message.scope,
      MsgVariant.scope, updateLatestLedgerSeq]
  have hR : ((((NodeState.initial.update
      msgRequest)).accounts "w").account_message_history).length = 1 := by
    simp [NodeState.initial, NodeState.update, AccountState.update,
      AccountState.status, AccountState.initial, msgRequest, Message.scope,
      MsgVariant.scope, updateLatestLedgerSeq]
  rw [hL, hR] at h2
  exact absurd h2 (by decide)

/-- C1 (amended): for every root state and every message whose position
advances the watermark, applying the message a second time leaves the
watermark exactly where the first application put it, and the ordering
check classifies the second application as a duplicate; the duplicate is
nevertheless still routed to the `AccountState` (it is not dropped). -/
theorem duplicate_second_update (s : NodeState) (u : UserState) (m : Message)
    (hn : ledgerSeqDiag s.latest_ledger_seq m = SeqDiag.advanced)
    (hu : ledgerSeqDiag u.latest_ledger_seq m = SeqDiag.advanced) :
    ((s.update m).update m).latest_ledger_seq = (s.update m).latest_ledger_seq
    ∧ ledgerSeqDiag (s.update m).latest_ledger_seq m = SeqDiag.duplicate
    ∧ ((s.update m).update m).accounts m.user_wallet
        = ((s.update m).accounts m.user_wallet).update m
    ∧ ((u.update m).update m).latest_ledger_seq = (u.update m).latest_ledger_seq
    ∧ ledgerSeqDiag (u.update m).latest_ledger_seq m = SeqDiag.duplicate
    ∧ ((u.update m).update m).node_account = (u.update m).node_account.update m := by
  have cond : ∀ w : Nat × Nat, ledgerSeqDiag w m = SeqDiag.advanced →
      (m.ledger_seq > w.1 ∨ (m.ledger_seq = w.1 ∧ m.transaction_seq > w.2)) := by
    intro w hw
    by_contra hc
    unfold ledgerSeqDiag at hw
    rw [if_neg hc] at hw
    split at hw <;> simp_all
  have hwn : (s.update m).latest_ledger_seq = (m.ledger_seq, m.transaction_seq) := by
    show updateLatestLedgerSeq s.latest_ledger_seq m = _
    unfold updateLatestLedgerSeq
    rw [if_pos (cond _ hn)]
  have hwu : (u.update m).latest_ledger_seq = (m.ledger_seq, m.transaction_seq) := by
    show updateLatestLedgerSeq u.latest_ledger_seq m = _
    unfold updateLatestLedgerSeq
    rw [if_pos (cond _ hu)]
  refine ⟨?_, ?_, ?_, ?_, ?_, rfl⟩
  · show updateLatestLedgerSeq (s.update m).latest_ledger_seq m = _
    rw [hwn]
    simp [updateLatestLedgerSeq]
  · rw [hwn]
    simp [ledgerSeqDiag]
  · show (if m.user_wallet = m.user_wallet then _ else _) = _
    simp
  · show updateLatestLedgerSeq (u.update m).latest_ledger_seq m = _
    rw [hwu]
    simp [updateLatestLedgerSeq]
  · rw [hwu]
    simp [ledgerSeqDiag]

/-- Witness for C1 (amended) at the initial root states and the concrete
request message at position (1, 1). -/
theorem duplicate_second_update_witness :
    ((NodeState.initial.update msgRequest).update msgRequest).latest_ledger_seq
        = (NodeState.initial.update msgRequest).latest_ledger_seq
    ∧ ledgerSeqDiag (NodeState.initial.update msgRequest).latest_ledger_seq msgRequest
        = SeqDiag.duplicate
    ∧ ((NodeState.initial.update msgRequest).update msgRequest).accounts
          msgRequest.user_wallet
        = ((NodeState.initial.update msgRequest).accounts
            msgRequest.user_wallet).update msgRequest
    ∧ ((UserState.initial.update msgRequest).update msgRequest).latest_ledger_seq
        = (UserState.initial.update msgRequest).latest_ledger_seq
    ∧ ledgerSeqDiag (UserState.initial.update msgRequest).latest_ledger_seq msgRequest
        = SeqDiag.duplicate
    ∧ ((UserState.initial.update msgRequest).update msgRequest).node_account
        = (UserState.initial.update msgRequest).node_account.update msgRequest :=
  duplicate_second_update NodeState.initial UserState.initial msgRequest
    (by decide) (by decide)

/-- C2 counterexample: a message strictly below the watermark is not
dropped — it is still routed to its `AccountState`, whose history grows. -/
theorem out_of_order_not_dropped_counterexample :
    (nodeAtFiveTwo.update msgAtFiveOne).accounts "w" ≠ nodeAtFiveTwo.accounts "w" := by
  intro h
  have h2 := congrArg (fun a => a.account_message_history.length) h
  dsimp only at h2
  have hL : (((nodeAtFiveTwo.update msgAtFiveOne).accounts
      "w").account_message_history).length = 1 := by
    simp [nodeAtFiveTwo, NodeState.update, AccountState.update,
      AccountState.status, AccountState.initial, msgAtFiveOne, Message.scope,
      MsgVariant.scope]
  have hR : ((nodeAtFiveTwo.accounts "w").account_message_history).length = 0 := by
    simp [nodeAtFiveTwo, AccountState.initial]
  rw [hL, hR] at h2
  exact absurd h2 (by decide)

/-- C2 (amended): for every root state and every message strictly below
the watermark in lexicographic order, `update` leaves the watermark
unchanged and the ordering check classifies the message as out-of-order;
the message is nevertheless still routed to the `AccountState` (it is not
dropped). -/
theorem out_of_order_update (s : NodeState) (u : UserState) (m : Message)
    (hn : lexLt (m.ledger_seq, m.transaction_seq) s.latest_ledger_seq)
    (hu : lexLt (m.ledger_seq, m.transaction_seq) u.latest_ledger_seq) :
    (s.update m).latest_ledger_seq = s.latest_ledger_seq
    ∧ ledgerSeqDiag s.latest_ledger_seq m = SeqDiag.outOfOrder
    ∧ (s.update m).accounts m.user_wallet = (s.accounts m.user_wallet).update m
    ∧ (u.update m).latest_ledger_seq = u.latest_ledger_seq
    ∧ ledgerSeqDiag u.latest_ledger_seq m = SeqDiag.outOfOrder
    ∧ (u.update m).node_account = u.node_account.update m := by
  have stay : ∀ w : Nat × Nat, lexLt (m.ledger_seq, m.transaction_seq) w →
      updateLatestLedgerSeq w m = w ∧ ledgerSeqDiag w m = SeqDiag.outOfOrder := by
    intro w hw
    rcases hw with hlt | ⟨heq, hlt⟩
    · constructor
      · unfold updateLatestLedgerSeq
        rw [if_neg]
        rintro (hgt | ⟨hge, _⟩) <;> omega
      · unfold ledgerSeqDiag
        rw [if_neg, if_neg]
        · rintro ⟨hge, _⟩; omega
        · rintro (hgt | ⟨hge, _⟩) <;> omega
    · constructor
      · unfold updateLatestLedgerSeq
        rw [if_neg]
        rintro (hgt | ⟨_, hgt⟩) <;> omega
      · unfold ledgerSeqDiag
        rw [if_neg, if_neg]
        · rintro ⟨_, hge⟩; omega
        · rintro (hgt | ⟨_, hgt⟩) <;> omega
  obtain ⟨hn1, hn2⟩ := stay s.latest_ledger_seq hn
  obtain ⟨hu1, hu2⟩ := stay u.latest_ledger_seq hu
  refine ⟨hn1, hn2, ?_, hu1, hu2, rfl⟩
  show (if m.user_wallet = m.user_wallet then _ else _) = _
  simp

/-- Witness for C2 (amended) at concrete root states with watermark (5, 2)
and the concrete request message at position (5, 1). -/
theorem out_of_order_update_witness :
    (nodeAtFiveTwo.update msgAtFiveOne).latest_ledger_seq
        = nodeAtFiveTwo.latest_ledger_seq
    ∧ ledgerSeqDiag nodeAtFiveTwo.latest_ledger_seq msgAtFiveOne = SeqDiag.outOfOrder
    ∧ (nodeAtFiveTwo.update msgAtFiveOne).accounts msgAtFiveOne.user_wallet
        = (nodeAtFiveTwo.accounts msgAtFiveOne.user_wallet).update msgAtFiveOne
    ∧ (userAtFiveTwo.update msgAtFiveOne).latest_ledger_seq
        = userAtFiveTwo.latest_ledger_seq
    ∧ ledgerSeqDiag userAtFiveTwo.latest_ledger_seq msgAtFiveOne = SeqDiag.outOfOrder
    ∧ (userAtFiveTwo.update msgAtFiveOne).node_account
        = userAtFiveTwo.node_account.update msgAtFiveOne :=
  out_of_order_update nodeAtFiveTwo userAtFiveTwo msgAtFiveOne
    (by decide) (by decide)

/-- Follows the spec's words: the documented target status of a task
message variant as a function of the current status — the documented
transition fires when the current status is in the variant's legal source
set, and the status is left unchanged otherwise.  Stated separately from
`TaskState.update` so that the code's behaviour can be compared with it. -/
def specTaskTarget (v : MsgVariant) (S : TaskStatus) : TaskStatus :=
  match v with
  | .userRequest => if S = TaskStatus.INVALID then TaskStatus.REQUESTED else S
  | .nodeProposal _ => if S = TaskStatus.REQUESTED then TaskStatus.PROPOSED else S
  | .userAcceptance => if S = TaskStatus.PROPOSED then TaskStatus.ACCEPTED else S
  | .userRefusal =>
      if S = TaskStatus.PROPOSED ∨ S = TaskStatus.ACCEPTED ∨
          S = TaskStatus.COMPLETED ∨ S = TaskStatus.CHALLENGED then
        TaskStatus.REFUSED
      else S
  | .userCompletion => if S = TaskStatus.ACCEPTED then TaskStatus.COMPLETED else S
  | .nodeChallenge => if S = TaskStatus.COMPLETED then TaskStatus.CHALLENGED else S
  | .userChallengeResponse => if S = TaskStatus.CHALLENGED then TaskStatus.RESPONDED else S
  | .nodeReward _ => if S = TaskStatus.RESPONDED then TaskStatus.REWARDED else S
  | _ => S

/-- C4: for every task status and every task-scoped message variant,
`TaskState.update` moves the status to the documented target when the
current status is in the variant's legal source set and leaves it unchanged
otherwise, and in both cases the message history grows by exactly one. -/
theorem task_update_transitions (s : TaskState) (m : Message)
    (h : m.scope = Scope.TASK) :
    (s.update m).status = specTaskTarget m.variant s.status
    ∧ (s.update m).message_history.length = s.message_history.length + 1 := by
  obtain ⟨d, ls, ts, w, tid, mid, rd, v⟩ := m
  cases v <;>
    simp_all [TaskState.update, specTaskTarget, Message.scope, MsgVariant.scope] <;>
    split <;> simp

/-- Witness for C4 at the initial task state and the concrete request
message. -/
theorem task_update_transitions_witness :
    (TaskState.initial.update msgRequest).status
        = specTaskTarget msgRequest.variant TaskState.initial.status
    ∧ (TaskState.initial.update msgRequest).message_history.length
        = TaskState.initial.message_history.length + 1 :=
  task_update_transitions TaskState.initial msgRequest rfl

/-- C6: on a non-blacklisted account, a task-scoped message is routed to
the child task state keyed by the task identifier exactly when the derived
status is ACTIVE, and a log request/response message is routed to the child
log state keyed by the message identifier exactly when the derived status
is ACTIVE; while the status is PENDING the message is appended to the
account-level history but neither child collection changes. -/
theorem account_routing_gated (s : AccountState) (m : Message)
    (hb : s.status ≠ AccountStatus.BLACKLISTED) :
    (m.scope = Scope.TASK →
      ((s.status = AccountStatus.ACTIVE →
          (s.update m).tasks = fun k =>
            if k = m.task_id then (s.tasks m.task_id).update m else s.tasks k)
       ∧ (s.status = AccountStatus.PENDING →
          (s.update m).tasks = s.tasks ∧ (s.update m).logs = s.logs
          ∧ (s.update m).account_message_history
              = s.account_message_history ++ [(m.direction, m.raw_data)])))
    ∧ (m.variant.isLog = true →
      ((s.status = AccountStatus.ACTIVE →
          (s.update m).logs = fun k =>
            if k = m.message_id then (s.logs m.message_id).update m else s.logs k)
       ∧ (s.status = AccountStatus.PENDING →
          (s.update m).logs = s.logs ∧ (s.update m).tasks = s.tasks
          ∧ (s.update m).account_message_history
              = s.account_message_history ++ [(m.direction, m.raw_data)]))) := by
  constructor
  · intro hscope
    constructor
    · intro hact
      simp [AccountState.update, hb, hscope, hact]
    · intro hpend
      have hact : ¬ s.status = AccountStatus.ACTIVE := by
        rw [hpend]; simp
      simp [AccountState.update, hb, hscope, hact]
  · intro hlog
    have hscope : ¬ m.scope = Scope.TASK := by
      obtain ⟨d, ls, ts, w, tid, mid, rd, v⟩ := m
      cases v <;> simp_all [Message.scope, MsgVariant.scope, MsgVariant.isLog]
    constructor
    · intro hact
      obtain ⟨d, ls, ts, w, tid, mid, rd, v⟩ := m
      cases v <;>
        simp_all [AccountState.update, Message.scope, MsgVariant.scope,
          MsgVariant.isLog]
    · intro hpend
      have hact : ¬ s.status = AccountStatus.ACTIVE := by
        rw [hpend]; simp
      obtain ⟨d, ls, ts, w, tid, mid, rd, v⟩ := m
      cases v <;>
        simp_all [AccountState.update, Message.scope, MsgVariant.scope,
          MsgVariant.isLog]

/-- Concrete active account: rite complete and context link present. -/
def activeAccount : AccountState :=
  ⟨RiteStatus.COMPLETE, some "doc", none, false,
    fun _ => TaskState.initial, fun _ => LogState.initial, []⟩

/-- Witness for C6 at a concrete active account and the concrete request
message. -/
theorem account_routing_gated_witness :
    (msgRequest.scope = Scope.TASK →
      ((activeAccount.status = AccountStatus.ACTIVE →
          (activeAccount.update msgRequest).tasks = fun k =>
            if k = msgRequest.task_id then
              (activeAccount.tasks msgRequest.task_id).update msgRequest
            else activeAccount.tasks k)
       ∧ (activeAccount.status = AccountStatus.PENDING →
          (activeAccount.update msgRequest).tasks = activeAccount.tasks
          ∧ (activeAccount.update msgRequest).logs = activeAccount.logs
          ∧ (activeAccount.update msgRequest).account_message_history
              = activeAccount.account_message_history
                ++ [(msgRequest.direction, msgRequest.raw_data)])))
    ∧ (msgRequest.variant.isLog = true →
      ((activeAccount.status = AccountStatus.ACTIVE →
          (activeAccount.update msgRequest).logs = fun k =>
            if k = msgRequest.message_id then
              (activeAccount.logs msgRequest.message_id).update msgRequest
            else activeAccount.logs k)
       ∧ (activeAccount.status = AccountStatus.PENDING →
          (activeAccount.update msgRequest).logs = activeAccount.logs
          ∧ (activeAccount.update msgRequest).tasks = activeAccount.tasks
          ∧ (activeAccount.update msgRequest).account_message_history
              = activeAccount.account_message_history
                ++ [(msgRequest.direction, msgRequest.raw_data)]))) :=
  account_routing_gated activeAccount msgRequest (by decide)

/-- Modelled from the spec: a message is well-formed when the task
identifier is present whenever the scope is TASK and the message identifier
is present whenever the variant is a log request/response (the interface
contract marks these fields required in exactly those cases). -/
def Message.WF (m : Message) : Prop :=
  (m.scope = Scope.TASK → m.task_id ≠ none)
  ∧ (m.variant.isLog = true → m.message_id ≠ none)

instance (m : Message) : Decidable m.WF := by
  unfold Message.WF; infer_instance

/-- Modelled from the spec: a fallible version of `NodeState.update` whose
only conceivable failure is a required message field being absent (the
messages module that constructs the fields is not part of the sources).
It errors exactly when a required identifier is missing and otherwise
returns the state computed by `NodeState.update`. -/
def NodeState.updateE (s : NodeState) (m : Message) : Except String NodeState :=
  if m.scope = Scope.TASK ∧ m.task_id = none then
    Except.error "missing task identifier"
  else if m.variant.isLog = true ∧ m.message_id = none then
    Except.error "missing message identifier"
  else Except.ok (s.update m)

/-- Modelled from the spec: the fallible version of `UserState.update`,
analogous to `NodeState.updateE`. -/
def UserState.updateE (s : UserState) (m : Message) : Except String UserState :=
  if m.scope = Scope.TASK ∧ m.task_id = none then
    Except.error "missing task identifier"
  else if m.variant.isLog = true ∧ m.message_id = none then
    Except.error "missing message identifier"
  else Except.ok (s.update m)

/-- C9: on every well-formed message, the root updates never fail: the
fallible updates return successfully, with exactly the state computed by
the total update functions, for every current state, variant and ledger
position. -/
theorem update_never_fails (s : NodeState) (u : UserState) (m : Message)
    (h : m.WF) :
    s.updateE m = Except.ok (s.update m)
    ∧ u.updateE m = Except.ok (u.update m) := by
  obtain ⟨h1, h2⟩ := h
  have c1 : ¬ (m.scope = Scope.TASK ∧ m.task_id = none) := by
    rintro ⟨ha, hb⟩; exact h1 ha hb
  have c2 : ¬ (m.variant.isLog = true ∧ m.message_id = none) := by
    rintro ⟨ha, hb⟩; exact h2 ha hb
  constructor
  · unfold NodeState.updateE
    rw [if_neg c1, if_neg c2]
  · unfold UserState.updateE
    rw [if_neg c1, if_neg c2]

/-- Witness for C9 at the initial root states and the concrete request
message. -/
theorem update_never_fails_witness :
    NodeState.initial.updateE msgRequest
        = Except.ok (NodeState.initial.update msgRequest)
    ∧ UserState.initial.updateE msgRequest
        = Except.ok (UserState.initial.update msgRequest) :=
  update_never_fails NodeState.initial UserState.initial msgRequest
    (by decide)

/-- C10: `UserState.update` is `NodeState.update` restricted to a single
account.  For every message sequence whose messages all carry the same
owning-wallet identifier, if the user state's single account and watermark
agree with the node state's account for that wallet and its watermark,
then they still agree after folding the whole sequence through the
respective updates. -/
theorem user_state_refines_node_state (msgs : List Message) (w : String)
    (ns : NodeState) (us : UserState)
    (hw : ∀ m ∈ msgs, m.user_wallet = w)
    (hacc : us.node_account = ns.accounts w)
    (hseq : us.latest_ledger_seq = ns.latest_ledger_seq) :
    (msgs.foldl UserState.update us).node_account
        = (msgs.foldl NodeState.update ns).accounts w
    ∧ (msgs.foldl UserState.update us).latest_ledger_seq
        = (msgs.foldl NodeState.update ns).latest_ledger_seq := by
  induction msgs generalizing ns us with
  | nil => exact ⟨hacc, hseq⟩
  | cons m rest ih =>
      have hm : m.user_wallet = w := hw m (List.mem_cons_self m rest)
      simp only [List.foldl_cons]
      refine ih (ns.update m) (us.update m) ?_ ?_ ?_
      · exact fun x hx => hw x (List.mem_cons_of_mem m hx)
      · show us.node_account.update m
            = (if w = m.user_wallet then (ns.accounts m.user_wallet).update m
               else ns.accounts w)
        rw [if_pos hm.symm, hm, hacc]
      · show updateLatestLedgerSeq us.latest_ledger_seq m
            = updateLatestLedgerSeq ns.latest_ledger_seq m
        rw [hseq]

/-- Second concrete message on the same wallet, at ledger position (2, 1),
carrying a proposal. -/
def msgProposal : Message :=
  ⟨Direction.nodeToUser, 2, 1, "w", some "t", none, "p", MsgVariant.nodeProposal 42⟩

/-- Witness for C10: a concrete two-message sequence on wallet "w",
starting from the initial root states. -/
theorem user_state_refines_node_state_witness :
    (([msgRequest, msgProposal]).foldl UserState.update UserState.initial).node_account
        = (([msgRequest, msgProposal]).foldl NodeState.update NodeState.initial).accounts "w"
    ∧ (([msgRequest, msgProposal]).foldl UserState.update UserState.initial).latest_ledger_seq
        = (([msgRequest, msgProposal]).foldl NodeState.update NodeState.initial).latest_ledger_seq :=
  user_state_refines_node_state [msgRequest, msgProposal] "w"
    NodeState.initial UserState.initial
    (by decide) rfl rfl

/-- Task states reachable from the default-constructed state by a sequence
of `update` calls. -/
inductive TaskReachable : TaskState → Prop
  | init : TaskReachable TaskState.initial
  | step (t : TaskState) (m : Message) : TaskReachable t → TaskReachable (t.update m)

/-- Invariant of reachable task states: once the offered amount is set the
status has left INVALID and REQUESTED for good, and once the rewarded
amount is set the status is REWARDED. -/
theorem task_amount_invariant (s : TaskState) (h : TaskReachable s) :
    (s.pft_offered.isSome = true →
      ¬ s.status = TaskStatus.INVALID ∧ ¬ s.status = TaskStatus.REQUESTED)
    ∧ (s.pft_rewarded.isSome = true → s.status = TaskStatus.REWARDED) := by
  induction h with
  | init => simp [TaskState.initial]
  | step t m hs ih =>
      obtain ⟨ih1, ih2⟩ := ih
      obtain ⟨d, ls, ts, w, tid, mid, rd, v⟩ := m
      cases v
      case userRefusal =>
        simp only [TaskState.update]
        split
        · rename_i hsrc
          constructor
          · intro hso
            simp
          · intro hrw
            have hst := ih2 hrw
            rcases hsrc with h1 | h1 | h1 | h1 <;> rw [hst] at h1 <;>
              exact absurd h1 (by decide)
        · simp_all
      all_goals
        simp only [TaskState.update]
        (try split) <;> simp_all

/-- C7: in every reachable task state, the offered amount field changes
only on the REQUESTED-to-PROPOSED transition, where it is set to the
proposal payload, and never changes again once set; the rewarded amount
field changes only on the RESPONDED-to-REWARDED transition, where it is
set to the reward payload, and never changes again once set.  Hence each
amount is assigned at most once over any run. -/
theorem task_amounts_set_once (s : TaskState) (m : Message)
    (hr : TaskReachable s) :
    ((s.update m).pft_offered ≠ s.pft_offered →
        s.status = TaskStatus.REQUESTED
        ∧ (s.update m).status = TaskStatus.PROPOSED
        ∧ (s.update m).pft_offered = m.variant.offerPayload
        ∧ (m.variant.offerPayload).isSome = true)
    ∧ (s.pft_offered.isSome = true → (s.update m).pft_offered = s.pft_offered)
    ∧ ((s.update m).pft_rewarded ≠ s.pft_rewarded →
        s.status = TaskStatus.RESPONDED
        ∧ (s.update m).status = TaskStatus.REWARDED
        ∧ (s.update m).pft_rewarded = m.variant.rewardPayload
        ∧ (m.variant.rewardPayload).isSome = true)
    ∧ (s.pft_rewarded.isSome = true → (s.update m).pft_rewarded = s.pft_rewarded) := by
  obtain ⟨io, ir⟩ := task_amount_invariant s hr
  obtain ⟨d, ls, ts, w, tid, mid, rd, v⟩ := m
  refine ⟨?_, ?_, ?_, ?_⟩ <;>
    cases v <;>
      simp only [TaskState.update, MsgVariant.offerPayload,
        MsgVariant.rewardPayload] <;>
      (try split) <;> simp_all

/-- Witness for C7 at the initial task state (reachable by construction)
and the concrete request message. -/
theorem task_amounts_set_once_witness :
    ((TaskState.initial.update msgRequest).pft_offered
          ≠ TaskState.initial.pft_offered →
        TaskState.initial.status = TaskStatus.REQUESTED
        ∧ (TaskState.initial.update msgRequest).status = TaskStatus.PROPOSED
        ∧ (TaskState.initial.update msgRequest).pft_offered
            = msgRequest.variant.offerPayload
        ∧ (msgRequest.variant.offerPayload).isSome = true)
    ∧ (TaskState.initial.pft_offered.isSome = true →
        (TaskState.initial.update msgRequest).pft_offered
          = TaskState.initial.pft_offered)
    ∧ ((TaskState.initial.update msgRequest).pft_rewarded
          ≠ TaskState.initial.pft_rewarded →
        TaskState.initial.status = TaskStatus.RESPONDED
        ∧ (TaskState.initial.update msgRequest).status = TaskStatus.REWARDED
        ∧ (TaskState.initial.update msgRequest).pft_rewarded
            = msgRequest.variant.rewardPayload
        ∧ (msgRequest.variant.rewardPayload).isSome = true)
    ∧ (TaskState.initial.pft_rewarded.isSome = true →
        (TaskState.initial.update msgRequest).pft_rewarded
          = TaskState.initial.pft_rewarded) :=
  task_amounts_set_once TaskState.initial msgRequest TaskReachable.init

end PostFiat
